import Mathlib

/-!
Verification development for the IMX500 object-detection UI's detection
snapshot pipeline (`detector.py`, with the `--postprocess` argument
declaration from `app.py`).

Shallow embedding conventions:
* Python floats are modelled as exact rationals (`ℚ`), Python ints as `ℤ`.
* `None`-able values are `Option`s.
* The external camera/inference collaborators (`imx500.get_outputs`,
  `imx500.get_input_size`, `imx500.convert_inference_coords`,
  `postprocess_nanodet_detection`, ROI / scaler-crop / output-shape
  diagnostics) are passed in as data or as abstract functions in a
  `DecodeEnv`; the repository never looks inside them.
* A Python dict used only as a diagnostic map is modelled as an
  insertion-ordered association list.
-/

/-- Constant `RAW_TOPK = 20` — raw candidates to show (detector.py line 17). -/
def RAW_TOPK : ℕ := 20

/-- One row of a 4-column float box array (`boxes[i, 0..3]`). -/
structure Box4 where
  c0 : ℚ
  c1 : ℚ
  c2 : ℚ
  c3 : ℚ
deriving DecidableEq

/-- Python `int(x)` on a float: truncation toward zero. -/
def pyInt (q : ℚ) : ℤ := if q < 0 then q.ceil else q.floor

/-- Dataclass `Det` (detector.py lines 20–24): an immutable detection record. -/
structure Det where
  label : String
  conf : ℚ
  box : ℤ × ℤ × ℤ × ℤ
deriving DecidableEq

/-- Heterogeneous values stored in the `debug` diagnostic dict. -/
inductive DebugVal where
  | int (n : ℤ)
  | rat (q : ℚ)
  | str (s : String)
  | bool (b : Bool)
  | nil
  | pair (a b : DebugVal)
  | tup4 (a b c d : ℤ)
  | list (xs : List DebugVal)

/-- A Python dict of diagnostics, as an insertion-ordered assoc list. -/
abbrev DebugDict := List (String × DebugVal)

def optStrVal : Option String → DebugVal
  | none => .nil
  | some s => .str s

def optBoolVal : Option Bool → DebugVal
  | none => .nil
  | some b => .bool b

def optTup4Val : Option (ℤ × ℤ × ℤ × ℤ) → DebugVal
  | none => .nil
  | some (a, b, c, d) => .tup4 a b c d

def shapesVal : Option (List (List ℤ)) → DebugVal
  | none => .nil
  | some ss => .list (ss.map (fun s => .list (s.map .int)))

/-- The configuration state of `IMX500Detector` that `parse_detections`
reads: the resolved args and intrinsics fields, with `labels` already the
result of `get_labels()`. -/
structure DetectorConfig where
  threshold : ℚ
  iou : ℚ
  max_detections : ℤ
  labels : List String
  postprocess : Option String
  bbox_normalization : Option Bool
  bbox_order : Option String
  preserve_aspect_ratio : Option Bool
  network_name : Option String

/-- The external camera/inference collaborators for one decode cycle.
`α` is the opaque type of the raw tensor `np_outputs[0]` that the
external `postprocess_nanodet_detection` consumes. `conv` is
`imx500.convert_inference_coords` with the cycle's metadata and the
camera object already applied. -/
structure DecodeEnv (α : Type) where
  conv : Box4 → Box4
  nanodetPost : α → ℚ → ℚ → ℤ → List Box4 × List ℚ × List ℚ
  input_w : ℤ
  input_h : ℤ
  output_shapes : Option (List (List ℤ))
  roi : Option (ℤ × ℤ × ℤ × ℤ)
  scaler_crop : Option (ℤ × ℤ × ℤ × ℤ)

/-- The raw network outputs of one inference cycle. `nanodetRaw` is the
opaque `np_outputs[0]` fed to the external nanodet postprocessor; the
three lists are `np_outputs[0][0]`, `np_outputs[1][0]`, `np_outputs[2][0]`
as read by the generic branch. -/
structure NpOutputs (α : Type) where
  nanodetRaw : α
  boxes0 : List Box4
  scores0 : List ℚ
  classes0 : List ℚ

/-- Method `get_labels` (detector.py lines 105–110): `self.intrinsics.labels or []`,
then drop empty/dash labels when `ignore_dash_labels` is set. -/
def get_labels (intrLabels : Option (List String)) (ignore_dash_labels : Bool) : List String :=
  let labels := intrLabels.getD []
  if ignore_dash_labels then labels.filter (fun label => label ≠ "" ∧ label ≠ "-") else labels

/-- Method `_apply_bbox_normalization_and_order` (detector.py lines 112–132):
when normalization is on, scale the four columns by the inference-space
dimensions in the order selected by `bbox_order` (`None` or `""` default
to `"yx"`, via Python `or`). -/
def apply_bbox_normalization_and_order (bboxNormalization : Option Bool)
    (bboxOrder : Option String) (input_w input_h : ℤ) (boxes : List Box4) : List Box4 :=
  let bbox_norm := bboxNormalization.getD false
  let bbox_order := match bboxOrder with
    | none => "yx"
    | some s => if s = "" then "yx" else s
  if bbox_norm then
    if bbox_order = "yx" then
      boxes.map (fun b => ⟨b.c0 * input_h, b.c1 * input_w, b.c2 * input_h, b.c3 * input_w⟩)
    else
      boxes.map (fun b => ⟨b.c0 * input_w, b.c1 * input_h, b.c2 * input_w, b.c3 * input_h⟩)
  else
    boxes

/-- Method `_nanodet_xywh_center_to_xyxy` (detector.py lines 134–143) on one row:
columns are `(x_c, y_c, w, h)`; result rows are `(x0, y0, x1, y1)`. -/
def nanodet_xywh_center_to_xyxy (b : Box4) : Box4 :=
  ⟨b.c0 - b.c2 / 2, b.c1 - b.c3 / 2, b.c0 + b.c2 / 2, b.c1 + b.c3 / 2⟩

/-- Method `_map_to_int_xywh` (detector.py lines 145–147). -/
def map_to_int_xywh (m : Box4) : ℤ × ℤ × ℤ × ℤ :=
  (pyInt m.c0, pyInt m.c1, pyInt m.c2, pyInt m.c3)

/-- The label lookup in the candidate loops (detector.py lines 237, 256):
`labels[cat] if 0 <= cat < len(labels) else f"Class {cat}"`. -/
def resolveLabel (labels : List String) (cat : ℤ) : String :=
  if 0 ≤ cat ∧ cat < (labels.length : ℤ) then labels.getD cat.toNat ""
  else "Class " ++ toString cat

/-- One iteration of the candidate loops (detector.py lines 234–240 /
253–259): build a `Det` from a `(box, score, category)` triple. -/
def mkDet (labels : List String) (conv : Box4 → Box4) (t : Box4 × ℚ × ℚ) : Det :=
  let conf := t.2.1
  let cat := pyInt t.2.2
  let name := resolveLabel labels cat
  let mapped := conv t.1
  ⟨name, conf, map_to_int_xywh mapped⟩

/-- Python `zip` over three parallel sequences (truncates to shortest). -/
def zip3 {α β γ : Type} (as : List α) (bs : List β) (cs : List γ) : List (α × β × γ) :=
  as.zip (bs.zip cs)

/-- The `raw_dets` list accumulated by a candidate loop. -/
def detsOfTriples (labels : List String) (conv : Box4 → Box4)
    (triples : List (Box4 × ℚ × ℚ)) : List Det :=
  triples.map (mkDet labels conv)

/-- Stable insert for descending confidence: walk past strictly larger
confidences, then place. -/
def insDesc (d : Det) : List Det → List Det
  | [] => [d]
  | e :: es => if e.conf ≤ d.conf then d :: e :: es else e :: insDesc d es

/-- Python `sorted(dets, key=lambda d: d.conf, reverse=True)`: a stable
descending sort by confidence (ties keep original order). -/
def sortDescConf : List Det → List Det
  | [] => []
  | d :: ds => insDesc d (sortDescConf ds)

/-- The branch bodies of `parse_detections` (lines 219–262): produce the
unsorted `raw_dets` list together with `len(scores)` (the
`raw_candidates` diagnostic). -/
def rawCandidatesOf {α : Type} (cfg : DetectorConfig) (env : DecodeEnv α)
    (out : NpOutputs α) : List Det × ℕ :=
  if cfg.postprocess = some "nanodet" then
    let res := env.nanodetPost out.nanodetRaw 0 cfg.iou (max cfg.max_detections (RAW_TOPK : ℤ))
    let boxes_xyxy := res.1.map nanodet_xywh_center_to_xyxy
    (detsOfTriples cfg.labels env.conv (zip3 boxes_xyxy res.2.1 res.2.2), res.2.1.length)
  else
    let boxes := apply_bbox_normalization_and_order cfg.bbox_normalization cfg.bbox_order
      env.input_w env.input_h out.boxes0
    (detsOfTriples cfg.labels env.conv (zip3 boxes out.scores0 out.classes0), out.scores0.length)

/-- The tail of `parse_detections` (lines 264–268): the filter performed
inside the loops (`if conf >= threshold: kept_dets.append(det)`) is the
`List.filter` below; then sort both lists, cap the raw list at
`RAW_TOPK`, and project the top three kept detections. Returns
`(kept_sorted, raw_topk, top3)`. -/
def rankCandidates (threshold : ℚ) (raw_dets : List Det) :
    List Det × List Det × List (String × ℚ) :=
  let kept_dets := raw_dets.filter (fun d => threshold ≤ d.conf)
  let raw_sorted := sortDescConf raw_dets
  let kept_sorted := sortDescConf kept_dets
  (kept_sorted, raw_sorted.take RAW_TOPK, (kept_sorted.take 3).map (fun d => (d.label, d.conf)))

/-- Result tuple of `parse_detections`. -/
structure ParseResult where
  dets : List Det
  raw_dets : List Det
  top3 : List (String × ℚ)
  debug : DebugDict

/-- The diagnostic dict built in detector.py lines 186–207. -/
def debugBase {α : Type} (cfg : DetectorConfig) (env : DecodeEnv α) : DebugDict :=
  [("threshold", .rat cfg.threshold),
   ("iou", .rat cfg.iou),
   ("max_detections", .int cfg.max_detections),
   ("raw_topk", .int (RAW_TOPK : ℤ)),
   ("input_size", .pair (.int env.input_w) (.int env.input_h)),
   ("bbox_order", optStrVal cfg.bbox_order),
   ("bbox_normalization", optBoolVal cfg.bbox_normalization),
   ("preserve_aspect_ratio", optBoolVal cfg.preserve_aspect_ratio),
   ("postprocess", optStrVal cfg.postprocess),
   ("network_name", optStrVal cfg.network_name),
   ("output_shapes", shapesVal env.output_shapes),
   ("roi", optTup4Val env.roi),
   ("scaler_crop", optTup4Val env.scaler_crop)]

/-- Method `parse_detections` (detector.py lines 176–272). `np_outputs` is the
value of `imx500.get_outputs(metadata, add_batch=True)` for this cycle. -/
def parse_detections {α : Type} (cfg : DetectorConfig) (env : DecodeEnv α)
    (np_outputs : Option (NpOutputs α)) : ParseResult :=
  match np_outputs with
  | none =>
      ⟨[], [], [], debugBase cfg env ++ [("raw_candidates", .int 0), ("kept", .int 0)]⟩
  | some out =>
      let rc := rawCandidatesOf cfg env out
      let rk := rankCandidates cfg.threshold rc.1
      ⟨rk.1, rk.2.1, rk.2.2,
        debugBase cfg env ++ [("raw_candidates", .int (rc.2 : ℤ)), ("kept", .int (rk.1.length : ℤ))]⟩

/-- Dataclass `FrameSnapshot` (detector.py lines 27–45), with the frame buffer
opaque of type `β`. Fields hold the values after `__post_init__`. -/
structure FrameSnapshot (β : Type) where
  frame_rgb : Option β
  src_size : ℤ × ℤ
  dets : List Det
  raw_dets : List Det
  top3 : List (String × ℚ)
  top_dets : List Det
  debug : DebugDict

/-- Constructing a `FrameSnapshot` and running `__post_init__`: each of
`dets`, `raw_dets`, `top3`, `top_dets`, `debug` is replaced by
`x or empty`, which maps `None` to the empty list/dict and leaves any
other value unchanged (an empty list/dict is falsy in Python, and
`[] or []` is `[]`, so `Option.getD` is extensionally exact). -/
def mkFrameSnapshot {β : Type} (frame_rgb : Option β) (src_size : ℤ × ℤ)
    (dets raw_dets : Option (List Det)) (top3 : Option (List (String × ℚ)))
    (top_dets : Option (List Det)) (debug : Option DebugDict) : FrameSnapshot β :=
  ⟨frame_rgb, src_size, dets.getD [], raw_dets.getD [], top3.getD [],
   top_dets.getD [], debug.getD []⟩

/-- The per-cycle inputs of `capture_snapshot` that come from the camera
request: the (already BGR→RGB flipped) frame of opaque type `β`, its
shape, and this cycle's raw outputs. -/
structure CaptureInputs (α β : Type) where
  frame : β
  src_w : ℤ
  src_h : ℤ
  np_outputs : Option (NpOutputs α)

/-- Method `capture_snapshot` (detector.py lines 274–296): run
`parse_detections`, add `src_size` to the debug dict, and assemble the
`FrameSnapshot` with `top_dets=dets[:3]`. -/
def capture_snapshot {α β : Type} (cfg : DetectorConfig) (env : DecodeEnv α)
    (cap : CaptureInputs α β) : FrameSnapshot β :=
  let r := parse_detections cfg env cap.np_outputs
  let debug := r.debug ++ [("src_size", .pair (.int cap.src_w) (.int cap.src_h))]
  mkFrameSnapshot (some cap.frame) (cap.src_w, cap.src_h) (some r.dets) (some r.raw_dets)
    (some r.top3) (some (r.dets.take 3)) (some debug)

/-- The argparse declaration `--postprocess choices=["", "nanodet"]`
(app.py line 966): the set of decode-variant selector values accepted at
configuration time. -/
def postprocessChoices : List String := ["", "nanodet"]

/-- argparse validation of the `--postprocess` value: an absent flag is
accepted as `None`; a supplied value outside `choices` is rejected with
an error before the detector is ever constructed. -/
def parsePostprocessArg (v : Option String) : Except String (Option String) :=
  match v with
  | none => Except.ok none
  | some s =>
      if s ∈ postprocessChoices then Except.ok (some s)
      else Except.error ("argument --postprocess: invalid choice: " ++ s)

/-- Method `_init_intrinsics`, its postprocess resolution (detector.py lines 78–80),
downstream of argparse: a CLI-supplied value overrides the
model-declared one (`pp = args.postprocess if args.postprocess != "" else ""`
is the identity on the supplied string). -/
def resolvePostprocess (cliArg : Option String) (modelPP : Option String) :
    Except String (Option String) :=
  match parsePostprocessArg cliArg with
  | Except.error e => Except.error e
  | Except.ok none => Except.ok modelPP
  | Except.ok (some pp) => Except.ok (some (if pp ≠ "" then pp else ""))

/-- Reading a `yx`-ordered coordinate quadruple as the `xy`-ordered
quadruple of the same rectangle (swap within each corner pair). -/
def yxToXy (b : Box4) : Box4 := ⟨b.c1, b.c0, b.c3, b.c2⟩

/-- Sortedness non-increasing by confidence, as a pairwise relation. -/
def DescConf (a b : Det) : Prop := b.conf ≤ a.conf

theorem insDesc_cons (d e : Det) (es : List Det) :
    insDesc d (e :: es) = if e.conf ≤ d.conf then d :: e :: es else e :: insDesc d es := rfl

theorem sortDescConf_cons (d : Det) (ds : List Det) :
    sortDescConf (d :: ds) = insDesc d (sortDescConf ds) := rfl

theorem insDesc_mem (d : Det) (l : List Det) (a : Det) :
    a ∈ insDesc d l ↔ a = d ∨ a ∈ l := by
  induction l with
  | nil => simp [insDesc]
  | cons e es ih =>
      by_cases h : e.conf ≤ d.conf
      · simp [insDesc_cons, h]
      · simp only [insDesc_cons, if_neg h, List.mem_cons, ih]
        tauto

theorem insDesc_pairwise (d : Det) (l : List Det) (h : l.Pairwise DescConf) :
    (insDesc d l).Pairwise DescConf := by
  induction l with
  | nil => simp [insDesc, DescConf]
  | cons e es ih =>
      rcases List.pairwise_cons.mp h with ⟨he, hes⟩
      by_cases hc : e.conf ≤ d.conf
      · rw [insDesc, if_pos hc]
        refine List.pairwise_cons.mpr ⟨?_, h⟩
        intro x hx
        rcases List.mem_cons.mp hx with rfl | hx
        · exact hc
        · exact le_trans (he x hx) hc
      · rw [insDesc, if_neg hc]
        refine List.pairwise_cons.mpr ⟨?_, ih hes⟩
        intro x hx
        rcases (insDesc_mem d es x).mp hx with rfl | hx
        · exact le_of_lt (lt_of_not_le hc)
        · exact he x hx

theorem sortDescConf_pairwise (l : List Det) : (sortDescConf l).Pairwise DescConf := by
  induction l with
  | nil => exact List.Pairwise.nil
  | cons d ds ih => exact insDesc_pairwise d (sortDescConf ds) ih

theorem sortDescConf_mem (l : List Det) (a : Det) : a ∈ sortDescConf l ↔ a ∈ l := by
  induction l with
  | nil => simp [sortDescConf]
  | cons d ds ih => rw [sortDescConf, insDesc_mem, ih]; simp

theorem insDesc_filter_neg (p : Det → Bool) (d : Det) (l : List Det) (hd : p d = false) :
    (insDesc d l).filter p = l.filter p := by
  induction l with
  | nil => simp [insDesc, hd]
  | cons e es ih =>
      by_cases hc : e.conf ≤ d.conf
      · simp [insDesc_cons, hc, List.filter_cons, hd]
      · cases hpe : p e <;> simp [insDesc_cons, hc, List.filter_cons, hpe, ih]

theorem insDesc_eq_cons (d : Det) (l : List Det) (h : ∀ e ∈ l, e.conf ≤ d.conf) :
    insDesc d l = d :: l := by
  cases l with
  | nil => rfl
  | cons e es => rw [insDesc, if_pos (h e (List.mem_cons_self e es))]

theorem insDesc_filter_pos (p : Det → Bool) (d : Det) (l : List Det)
    (hd : p d = true) (hl : l.Pairwise DescConf) :
    (insDesc d l).filter p = insDesc d (l.filter p) := by
  induction l with
  | nil => simp [insDesc, hd]
  | cons e es ih =>
      rcases List.pairwise_cons.mp hl with ⟨he, hes⟩
      by_cases hc : e.conf ≤ d.conf
      · have hall : ∀ x ∈ (e :: es).filter p, x.conf ≤ d.conf := by
          intro x hx
          rcases List.mem_cons.mp (List.mem_of_mem_filter hx) with rfl | hx
          · exact hc
          · exact le_trans (he x hx) hc
        rw [insDesc_cons, if_pos hc, insDesc_eq_cons d _ hall]
        simp [List.filter_cons, hd]
      · rw [insDesc_cons, if_neg hc]
        cases hpe : p e with
        | false => simp [List.filter_cons, hpe, ih hes]
        | true => simp [List.filter_cons, hpe, ih hes, insDesc_cons, hc]

theorem sortDescConf_filter (p : Det → Bool) (l : List Det) :
    sortDescConf (l.filter p) = (sortDescConf l).filter p := by
  induction l with
  | nil => rfl
  | cons d ds ih =>
      cases hd : p d with
      | false =>
          simp [List.filter_cons, hd, sortDescConf_cons, ih, insDesc_filter_neg p d _ hd]
      | true =>
          simp [List.filter_cons, hd, sortDescConf_cons, ih,
            insDesc_filter_pos p d _ hd (sortDescConf_pairwise ds)]

theorem filter_append_of_pairwise (th : ℚ) (l : List Det) (hl : l.Pairwise DescConf) :
    ∃ t, (l.filter (fun d => th ≤ d.conf)) ++ t = l := by
  induction l with
  | nil => exact ⟨[], rfl⟩
  | cons e es ih =>
      rcases List.pairwise_cons.mp hl with ⟨he, hes⟩
      by_cases hc : th ≤ e.conf
      · rcases ih hes with ⟨t, ht⟩
        refine ⟨t, ?_⟩
        simp [List.filter_cons, hc, ht]
      · refine ⟨e :: es, ?_⟩
        have : (e :: es).filter (fun d => decide (th ≤ d.conf)) = [] := by
          refine List.filter_eq_nil_iff.mpr ?_
          intro x hx
          rcases List.mem_cons.mp hx with rfl | hx
          · simpa using hc
          · have : x.conf ≤ e.conf := he x hx
            simp only [decide_eq_true_eq]
            intro hth
            exact hc (le_trans hth this)
        rw [this]
        rfl

theorem mem_take_of_append {xs t ys : List Det} (h : xs ++ t = ys) {n : ℕ}
    (hn : xs.length ≤ n) {a : Det} (ha : a ∈ xs) : a ∈ ys.take n := by
  subst h
  rw [List.take_append_eq_append_take, List.take_of_length_le hn]
  exact List.mem_append_left _ ha

theorem rank_dets_eq (th : ℚ) (raw : List Det) :
    (rankCandidates th raw).1 = sortDescConf (raw.filter (fun d => th ≤ d.conf)) := rfl

theorem rank_raw_eq (th : ℚ) (raw : List Det) :
    (rankCandidates th raw).2.1 = (sortDescConf raw).take RAW_TOPK := rfl

theorem parse_detections_some_dets {α : Type} (cfg : DetectorConfig) (env : DecodeEnv α)
    (out : NpOutputs α) :
    (parse_detections cfg env (some out)).dets
      = (rankCandidates cfg.threshold (rawCandidatesOf cfg env out).1).1 := rfl

theorem parse_detections_some_raw {α : Type} (cfg : DetectorConfig) (env : DecodeEnv α)
    (out : NpOutputs α) :
    (parse_detections cfg env (some out)).raw_dets
      = (rankCandidates cfg.threshold (rawCandidatesOf cfg env out).1).2.1 := rfl

/-- The kept list is the threshold filter of the sorted raw list: the
stable sort and the (confidence-only) filter commute. -/
theorem parse_dets_eq_filter_sorted {α : Type} (cfg : DetectorConfig) (env : DecodeEnv α)
    (out : NpOutputs α) :
    (parse_detections cfg env (some out)).dets
      = (sortDescConf (rawCandidatesOf cfg env out).1).filter
          (fun d => cfg.threshold ≤ d.conf) := by
  rw [parse_detections_some_dets, rank_dets_eq, sortDescConf_filter]

/-- Lemma: `top3` is always the projection of the first three kept detections. -/
theorem parse_top3_eq {α : Type} (cfg : DetectorConfig) (env : DecodeEnv α)
    (np : Option (NpOutputs α)) :
    (parse_detections cfg env np).top3
      = ((parse_detections cfg env np).dets.take 3).map (fun d => (d.label, d.conf)) := by
  cases np with
  | none => rfl
  | some out => rfl

/-- Scenario-B configuration: `threshold=0.5`, `max_detections=1`,
generic decode variant, no bbox normalization. -/
def cfgB : DetectorConfig :=
  { threshold := mkRat 1 2, iou := mkRat 13 20, max_detections := 1, labels := ["a"],
    postprocess := none, bbox_normalization := none, bbox_order := none,
    preserve_aspect_ratio := none, network_name := none }

/-- A concrete decode environment with the identity coordinate mapper. -/
def envU : DecodeEnv Unit :=
  { conv := fun b => b, nanodetPost := fun _ _ _ _ => ([], [], []),
    input_w := 320, input_h := 320, output_shapes := none, roi := none,
    scaler_crop := none }

/-- Scenario-B raw outputs: two candidates with confidences 0.95 and
0.94, both above the threshold 0.5. -/
def outB : NpOutputs Unit :=
  { nanodetRaw := (), boxes0 := [⟨0, 0, 1, 1⟩, ⟨0, 0, 1, 1⟩],
    scores0 := [mkRat 19 20, mkRat 47 50], classes0 := [0, 0] }

/-- Configuration identical to `cfgB` except that the (model-declared)
decode variant is the unrecognized value "ssd": the CLI flag is absent,
so nothing validates it. -/
def cfgSsd : DetectorConfig :=
  { threshold := mkRat 1 2, iou := mkRat 13 20, max_detections := 1, labels := ["a"],
    postprocess := some "ssd", bbox_normalization := none, bbox_order := none,
    preserve_aspect_ratio := none, network_name := none }

theorem parse_none_raw {α : Type} (cfg : DetectorConfig) (env : DecodeEnv α) :
    (parse_detections cfg env none).raw_dets = [] := rfl

theorem parse_none_dets {α : Type} (cfg : DetectorConfig) (env : DecodeEnv α) :
    (parse_detections cfg env none).dets = [] := rfl

/-- C1 — the claim as stated is FALSE on the code: `parse_detections`
returns `kept_sorted` without slicing it to `max_detections`
(detector.py line 272), so in scenario B (`max_detections=1`, candidates
0.95 and 0.94 both above the threshold 0.5) `detections` has two
elements, not one. -/
theorem C1_counterexample :
    (parse_detections cfgB envU (some outB)).dets.length = 2 ∧
    cfgB.max_detections = 1 ∧
    ¬ (((parse_detections cfgB envU (some outB)).dets.length : ℤ) ≤ cfgB.max_detections) := by
  decide

/-- C1 (amended): for every raw output and configuration,
`len(raw_detections) ≤ raw_topk`; but `detections` is not truncated to
`max_detections`: with `max_detections=1` and two candidates with
confidences 0.95 and 0.94 both above the threshold, `detections` has
exactly two elements, with confidences 0.95 then 0.94. -/
theorem C1_raw_topk_bound_and_scenarioB :
    (∀ (α : Type) (cfg : DetectorConfig) (env : DecodeEnv α) (np : Option (NpOutputs α)),
        (parse_detections cfg env np).raw_dets.length ≤ RAW_TOPK) ∧
    (parse_detections cfgB envU (some outB)).dets.length = 2 ∧
    (parse_detections cfgB envU (some outB)).dets.map Det.conf = [mkRat 19 20, mkRat 47 50] := by
  refine ⟨?_, by decide, by decide⟩
  intro α cfg env np
  cases np with
  | none => rw [parse_none_raw]; exact Nat.zero_le _
  | some out =>
      rw [parse_detections_some_raw, rank_raw_eq, List.length_take]
      exact min_le_left _ _

/-- C2 — confirmed: for every raw output and configuration, `detections`
is sorted non-increasing by confidence and every element's confidence is
at least `confidence_threshold`. -/
theorem C2_sorted_and_thresholded :
    ∀ (α : Type) (cfg : DetectorConfig) (env : DecodeEnv α) (np : Option (NpOutputs α)),
      (parse_detections cfg env np).dets.Pairwise DescConf ∧
      ∀ d ∈ (parse_detections cfg env np).dets, cfg.threshold ≤ d.conf := by
  intro α cfg env np
  cases np with
  | none =>
      refine ⟨?_, ?_⟩
      · rw [parse_none_dets]; exact List.Pairwise.nil
      · intro d hd; rw [parse_none_dets] at hd; cases hd
  | some out =>
      refine ⟨?_, ?_⟩
      · rw [parse_detections_some_dets, rank_dets_eq]
        exact sortDescConf_pairwise _
      · intro d hd
        rw [parse_detections_some_dets, rank_dets_eq] at hd
        have hmem := (sortDescConf_mem _ d).mp hd
        have := List.of_mem_filter hmem
        simpa using this

/-- Witness for C2 at the concrete scenario-B input: the detection with
confidence 0.95 is in `detections`, hence above the threshold 0.5. -/
theorem C2_witness :
    (parse_detections cfgB envU (some outB)).dets.Pairwise DescConf ∧
    cfgB.threshold ≤ (mkRat 19 20) :=
  ⟨(C2_sorted_and_thresholded Unit cfgB envU (some outB)).1,
   (C2_sorted_and_thresholded Unit cfgB envU (some outB)).2
     ⟨"a", mkRat 19 20, (0, 0, 1, 1)⟩ (by decide)⟩

/-- C3 — confirmed: `raw_detections` is sorted non-increasing by
confidence, has length ≤ `raw_topk`, and contains (by content) every
element of `detections` truncated to `min(raw_topk, max_detections)`:
the kept list is a prefix (by content) of the sorted raw list because
everything outranking a kept detection also passes the threshold. -/
theorem C3_raw_superset :
    ∀ (α : Type) (cfg : DetectorConfig) (env : DecodeEnv α) (np : Option (NpOutputs α)),
      (parse_detections cfg env np).raw_dets.Pairwise DescConf ∧
      (parse_detections cfg env np).raw_dets.length ≤ RAW_TOPK ∧
      ∀ d ∈ (parse_detections cfg env np).dets.take
          (min (RAW_TOPK : ℤ) cfg.max_detections).toNat,
        d ∈ (parse_detections cfg env np).raw_dets := by
  intro α cfg env np
  cases np with
  | none =>
      refine ⟨?_, ?_, ?_⟩
      · rw [parse_none_raw]; exact List.Pairwise.nil
      · rw [parse_none_raw]; exact Nat.zero_le _
      · intro d hd; rw [parse_none_dets] at hd; simp at hd
  | some out =>
      refine ⟨?_, ?_, ?_⟩
      · rw [parse_detections_some_raw, rank_raw_eq]
        exact (sortDescConf_pairwise _).sublist (List.take_sublist _ _)
      · rw [parse_detections_some_raw, rank_raw_eq, List.length_take]
        exact min_le_left _ _
      · intro d hd
        have hk : (min (RAW_TOPK : ℤ) cfg.max_detections).toNat ≤ RAW_TOPK :=
          Int.toNat_le.mpr (min_le_left _ _)
        rw [parse_dets_eq_filter_sorted] at hd
        rw [parse_detections_some_raw, rank_raw_eq]
        obtain ⟨t, ht⟩ := filter_append_of_pairwise cfg.threshold
          (sortDescConf (rawCandidatesOf cfg env out).1) (sortDescConf_pairwise _)
        set f := (sortDescConf (rawCandidatesOf cfg env out).1).filter
          (fun d => cfg.threshold ≤ d.conf) with hf
        set k := (min (RAW_TOPK : ℤ) cfg.max_detections).toNat with hkdef
        have happ : f.take k ++ (f.drop k ++ t) = sortDescConf (rawCandidatesOf cfg env out).1 := by
          rw [← List.append_assoc, List.take_append_drop, ht]
        have hlen : (f.take k).length ≤ RAW_TOPK := by
          rw [List.length_take]
          exact le_trans (min_le_left _ _) hk
        exact mem_take_of_append happ hlen hd

/-- Witness for C3 at the concrete scenario-B input: the top detection
is also in `raw_detections`. -/
theorem C3_witness :
    (⟨"a", mkRat 19 20, (0, 0, 1, 1)⟩ : Det) ∈ (parse_detections cfgB envU (some outB)).raw_dets :=
  (C3_raw_superset Unit cfgB envU (some outB)).2.2 _ (by decide)

/-- C4 — confirmed: absent raw outputs (`np_outputs is None`) give
`detections == []`, `raw_detections == []`, `top3_summary == []`; the
embedded decoder is total, so no exception is possible, and the cycle
degrades to "no detections this frame". -/
theorem C4_absent_outputs :
    ∀ (α : Type) (cfg : DetectorConfig) (env : DecodeEnv α),
      (parse_detections cfg env none).dets = [] ∧
      (parse_detections cfg env none).raw_dets = [] ∧
      (parse_detections cfg env none).top3 = [] :=
  fun _ _ _ => ⟨rfl, rfl, rfl⟩

/-- C5 — the claim as stated is FALSE on the code for model-declared
variants: with no CLI override, the unrecognized model-declared decode
variant "ssd" resolves without any error (detector.py lines 78–85
perform no validation), and `parse_detections` (line 219) then silently
decodes every frame via the generic branch — its detections at the
scenario input coincide with those of the generic configuration. -/
theorem C5_counterexample :
    resolvePostprocess none (some "ssd") = Except.ok (some "ssd") ∧
    (∀ e, resolvePostprocess none (some "ssd") ≠ Except.error e) ∧
    (parse_detections cfgSsd envU (some outB)).dets
      = (parse_detections cfgB envU (some outB)).dets ∧
    (parse_detections cfgSsd envU (some outB)).dets.length = 2 := by
  refine ⟨rfl, ?_, by decide, by decide⟩
  intro e h
  rw [show resolvePostprocess none (some "ssd") = Except.ok (some "ssd") from rfl] at h
  cases h

/-- C5 (amended): only the CLI decode-variant selector fails fast — an
unrecognized `--postprocess` value errors at configuration time via the
argparse `choices` (app.py line 966), both at parsing and through
`_init_intrinsics`' resolution; but a model-declared decode variant is
never validated: resolution passes any model value through unchanged,
and at decode time an unrecognized variant silently falls back to the
generic per-frame decode path. -/
theorem C5_cli_failfast_model_fallback (s : String) (h : s ∉ postprocessChoices) :
    (∃ e, parsePostprocessArg (some s) = Except.error e) ∧
    (∀ modelPP, ∃ e, resolvePostprocess (some s) modelPP = Except.error e) ∧
    (∀ modelPP, resolvePostprocess none modelPP = Except.ok modelPP) ∧
    (parse_detections cfgSsd envU (some outB)).dets
      = (parse_detections cfgB envU (some outB)).dets := by
  have herr : parsePostprocessArg (some s)
      = Except.error ("argument --postprocess: invalid choice: " ++ s) := by
    rw [parsePostprocessArg, if_neg h]
  refine ⟨⟨_, herr⟩, ?_, ?_, by decide⟩
  · intro modelPP
    refine ⟨"argument --postprocess: invalid choice: " ++ s, ?_⟩
    rw [resolvePostprocess, herr]
  · intro modelPP
    rfl

/-- Witness for the amended C5: the unrecognized CLI selector value
"bogus" is rejected at configuration time. -/
theorem C5_amended_witness :
    ("bogus" ∉ postprocessChoices) ∧
    ∃ e, parsePostprocessArg (some "bogus") = Except.error e :=
  ⟨by decide, (C5_cli_failfast_model_fallback "bogus" (by decide)).1⟩

/-- C6 — confirmed: a normalized box in `yx` order, scaled under
`bbox_normalization=true, bbox_order=yx`, denotes the same pixel
rectangle (read in `yx` order) as the equivalent already-denormalized
`xy`-ordered box passed through under
`bbox_normalization=false, bbox_order=xy`. -/
theorem C6_roundtrip (y0 x0 y1 x1 : ℚ) (input_w input_h : ℤ) :
    (apply_bbox_normalization_and_order (some true) (some "yx") input_w input_h
        [⟨y0, x0, y1, x1⟩]).map yxToXy
      = apply_bbox_normalization_and_order (some false) (some "xy") input_w input_h
          [⟨input_w * x0, input_h * y0, input_w * x1, input_h * y1⟩] := by
  simp [apply_bbox_normalization_and_order, yxToXy, mul_comm]

/-- C7 — confirmed: `top3_summary` equals the first `min(3, len(detections))`
elements of `detections` (that is what `List.take 3` returns), projected
to `(label, confidence)` pairs. -/
theorem C7_top3_is_projected_head :
    ∀ (α : Type) (cfg : DetectorConfig) (env : DecodeEnv α) (np : Option (NpOutputs α)),
      (parse_detections cfg env np).top3
        = ((parse_detections cfg env np).dets.take 3).map (fun d => (d.label, d.conf)) :=
  fun _ cfg env np => parse_top3_eq cfg env np

/-- C8 — confirmed: a class index outside the resolved label list
(negative, or at least the list length) resolves to the synthesized
fallback name `"Class {index}"`; the lookup is total, so no error can be
raised. -/
theorem C8_out_of_range_label (labels : List String) (cat : ℤ)
    (h : cat < 0 ∨ (labels.length : ℤ) ≤ cat) :
    resolveLabel labels cat = "Class " ++ toString cat := by
  rw [resolveLabel, if_neg]
  rintro ⟨h0, hlen⟩
  rcases h with h | h
  · exact absurd h0 (not_le.mpr h)
  · exact absurd hlen (not_lt.mpr h)

/-- Witness for C8: index 999 against a label list of length 3 resolves
to "Class 999". -/
theorem C8_witness :
    ((999 : ℤ) < 0 ∨ (((["a", "b", "c"] : List String).length : ℤ) ≤ 999)) ∧
    resolveLabel ["a", "b", "c"] 999 = "Class 999" := by
  refine ⟨Or.inr (by decide), ?_⟩
  rw [C8_out_of_range_label ["a", "b", "c"] 999 (Or.inr (by decide))]
  decide

/-- C9 — confirmed: every snapshot built by `capture_snapshot` has
`top_dets = dets[:3]` (the first `min(3, len(dets))` full `Det`
records), and `top3` is exactly their `(label, confidence)` projection. -/
theorem C9_top_dets_field :
    ∀ (α β : Type) (cfg : DetectorConfig) (env : DecodeEnv α) (cap : CaptureInputs α β),
      (capture_snapshot cfg env cap).top_dets = (capture_snapshot cfg env cap).dets.take 3 ∧
      (capture_snapshot cfg env cap).top3
        = (capture_snapshot cfg env cap).top_dets.map (fun d => (d.label, d.conf)) := by
  intro α β cfg env cap
  refine ⟨rfl, ?_⟩
  show (parse_detections cfg env cap.np_outputs).top3
    = ((parse_detections cfg env cap.np_outputs).dets.take 3).map (fun d => (d.label, d.conf))
  exact parse_top3_eq cfg env cap.np_outputs

/-- C10 — confirmed: for each of the five fields `dets`, `raw_dets`,
`top3`, `top_dets`, `debug`, passing `None` (the Python default) yields
the empty list (empty dict for `debug`) in the constructed snapshot; the
snapshot's fields are list/dict-typed, so consumers never observe a
`None` there. -/
theorem C10_post_init_normalizes (β : Type) (fr : Option β) (ss : ℤ × ℤ)
    (dets raw_dets : Option (List Det)) (top3 : Option (List (String × ℚ)))
    (top_dets : Option (List Det)) (debug : Option DebugDict) :
    (dets = none → (mkFrameSnapshot fr ss dets raw_dets top3 top_dets debug).dets = []) ∧
    (raw_dets = none → (mkFrameSnapshot fr ss dets raw_dets top3 top_dets debug).raw_dets = []) ∧
    (top3 = none → (mkFrameSnapshot fr ss dets raw_dets top3 top_dets debug).top3 = []) ∧
    (top_dets = none → (mkFrameSnapshot fr ss dets raw_dets top3 top_dets debug).top_dets = []) ∧
    (debug = none → (mkFrameSnapshot fr ss dets raw_dets top3 top_dets debug).debug = []) := by
  refine ⟨?_, ?_, ?_, ?_, ?_⟩ <;> rintro rfl <;> rfl

/-- Witness for C10: constructing a snapshot with all five fields
omitted yields empty lists and an empty debug dict. -/
theorem C10_witness :
    (mkFrameSnapshot (none : Option Unit) (1280, 720) none none none none none).dets = [] ∧
    (mkFrameSnapshot (none : Option Unit) (1280, 720) none none none none none).raw_dets = [] ∧
    (mkFrameSnapshot (none : Option Unit) (1280, 720) none none none none none).top3 = [] ∧
    (mkFrameSnapshot (none : Option Unit) (1280, 720) none none none none none).top_dets = [] ∧
    (mkFrameSnapshot (none : Option Unit) (1280, 720) none none none none none).debug = [] := by
  have h := C10_post_init_normalizes Unit none (1280, 720) none none none none none
  exact ⟨h.1 rfl, h.2.1 rfl, h.2.2.1 rfl, h.2.2.2.1 rfl, h.2.2.2.2 rfl⟩
